import Mathlib

/-! authd: broker IPC proxy and pre-auth user registry

Shallow embedding of `internal/brokers/dbusbroker.go` (the D-Bus proxy of one
authentication broker) and of the temporary pre-auth user records exercised by
`internal/users/tempentries/preauth_test.go`.

Stateful code is written in state-passing style: every broker operation takes
the `World` (the bus with the remote broker behind it, the calls placed so far,
the log) and returns its Go results together with the world afterwards.
-/

set_option autoImplicit false

namespace Authd

namespace Brokers

/-! ## External collaborators: context, logger, ini file, bus -/

/-- A `context.Context` as the callee can observe it: which context it is and
whether it is already done (cancelled or past its deadline). -/
structure Context where
  id : Nat
  done : Bool
deriving DecidableEq, Repr

/-- Values crossing the IPC boundary: scalar strings, one string-to-string
mapping, an ordered sequence of such mappings, or any other wire value
(integers, variants, object paths, ...). A Go `map[string]string` is kept as
its list of pairs, the nil map being `[]`. -/
inductive Value where
  | str (s : String)
  | dict (m : List (String × String))
  | dictList (ms : List (List (String × String)))
  | other (code : Nat)
deriving DecidableEq, Repr

/-- Errors a broker operation can hand back: the fault the IPC call reported in
`call.Err` (transport fault or broker-reported fault), or the error with which
`call.Store` refused to decode the reply. -/
inductive Error where
  | fault (name : String) (body : String)
  | decode (reason : String)
deriving DecidableEq, Repr

/-- The `*dbus.Conn` a bus object lives on. -/
structure Conn where
  id : Nat
deriving DecidableEq, Repr

/-- The `dbus.BusObject` returned by `bus.Object(dest, path)`. -/
structure BusObject where
  conn : Conn
  dest : String
  path : String
deriving DecidableEq, Repr

/-- `bus.Object(dest, dbus.ObjectPath(path))`. -/
def Conn.Object (bus : Conn) (dest path : String) : BusObject :=
  { conn := bus, dest := dest, path := path }

/-- One method call as the bus receives it. `context` is `some ctx` for
`CallWithContext(ctx, ...)` and `none` for the context-free `Call(...)`. -/
structure MethodCall where
  object : BusObject
  context : Option Context
  method : String
  flags : Nat
  args : List Value
deriving DecidableEq, Repr

/-- The `*dbus.Call` a call returns: its `Err` and reply `Body`. -/
structure Call where
  Err : Option Error
  Body : List Value
deriving DecidableEq, Repr

/-- The `Store` method of `*dbus.Call`, for the three kinds of destinations
`dbusbroker.go` passes to it. The IPC library is not part of the repository, so
its decoder is a parameter: given the call and the values the destinations hold
before, it gives the values they hold afterwards and the error it returns.
Nothing is assumed about which replies it accepts, converts or refuses, nor
about what it leaves in the destinations when it fails. -/
structure Store where
  strings : Call → String → String → (String × String) × Option Error
  dictList : Call → List (List (String × String)) →
    List (List (String × String)) × Option Error
  dict : Call → List (String × String) → List (String × String) × Option Error

/-- Argument of a formatted log line. -/
inductive LogArg where
  | str (s : String)
  | err (e : Error)
deriving DecidableEq, Repr

/-- Severity of a log line. -/
inductive LogLevel where
  | debug
  | error
deriving DecidableEq, Repr

/-- One call of `log.Debugf` / `log.Errorf`. -/
structure LogEntry where
  level : LogLevel
  ctx : Context
  format : String
  args : List LogArg
deriving DecidableEq, Repr

/-- Everything outside the proxy. `respond` is the bus together with the remote
broker: given the calls placed before, it answers the next call. `store` is the
decoder of the IPC library. `calls` and `logs` record, oldest first, what the
proxy has done. -/
structure World where
  respond : List MethodCall → MethodCall → Call
  store : Store
  calls : List MethodCall
  logs : List LogEntry

/-- Place one call on the bus: the bus answers and the call is recorded. -/
def World.place (w : World) (m : MethodCall) : Call × World :=
  (w.respond w.calls m, { w with calls := w.calls ++ [m] })

/-- `obj.CallWithContext(ctx, method, flags, args...)`. -/
def BusObject.CallWithContext (obj : BusObject) (ctx : Context) (method : String)
    (flags : Nat) (args : List Value) (w : World) : Call × World :=
  w.place { object := obj, context := some ctx, method := method, flags := flags, args := args }

/-- `obj.Call(method, flags, args...)`: no caller context reaches the bus. -/
def BusObject.Call (obj : BusObject) (method : String) (flags : Nat) (args : List Value)
    (w : World) : Call × World :=
  w.place { object := obj, context := none, method := method, flags := flags, args := args }

/-- `log.Debugf(ctx, format, args...)`. -/
def World.Debugf (w : World) (ctx : Context) (format : String) (args : List LogArg) : World :=
  { w with logs := w.logs ++ [{ level := .debug, ctx := ctx, format := format, args := args }] }

/-- `log.Errorf(ctx, format, args...)`. -/
def World.Errorf (w : World) (ctx : Context) (format : String) (args : List LogArg) : World :=
  { w with logs := w.logs ++ [{ level := .error, ctx := ctx, format := format, args := args }] }

/-! ### The ini configuration file -/

/-- A loaded ini file, as `cfg.Section(s).GetKey(k)` sees it: the value of key
`k` in section `s` when the key exists. The unnamed top section is `""`. -/
structure IniFile where
  keys : String → String → Option String

/-- The error of `GetKey` on a key that does not exist; it carries the section
and the key it was asked for. -/
structure KeyError where
  sectionName : String
  key : String
deriving DecidableEq, Repr

/-- `cfg.Section(sectionName).GetKey(key)`. -/
def IniFile.GetKey (cfg : IniFile) (sectionName key : String) : Except KeyError String :=
  match cfg.keys sectionName key with
  | some v => .ok v
  | none => .error { sectionName := sectionName, key := key }

/-- Errors built inside `newDbusBroker`. -/
inductive ConfigCause where
  | couldNotRead (cause : String)
  | missingField (cause : KeyError)
deriving DecidableEq, Repr

/-- The error `newDbusBroker` returns: `decorate.OnError` puts the configuration
file in front of the cause. -/
structure ConfigError where
  configFile : String
  cause : ConfigCause
deriving DecidableEq, Repr

/-! ## dbusbroker.go -/

/-- The Go struct `dbusBroker`. -/
structure dbusBroker where
  dbusObject : BusObject
  interfaceName : String
deriving DecidableEq, Repr

/-- The Go function `newDbusBroker`: a dbus broker and broker attributes from
its configuration file. `load` is `ini.Load`. The Go results
`(b, fullName, brandIcon, nil)` are the `ok` triple; on error Go returns the
zero broker and two empty strings next to the error. -/
def newDbusBroker (load : String → Except String IniFile) (ctx : Context) (bus : Conn)
    (configFile : String) (w : World) :
    Except ConfigError (dbusBroker × String × String) × World :=
  let w := w.Debugf ctx "Dbus broker configuration at %q" [.str configFile]
  match load configFile with
  | .error e => (.error ⟨configFile, .couldNotRead e⟩, w)
  | .ok cfg =>
    match cfg.GetKey "" "name" with
    | .error e => (.error ⟨configFile, .missingField e⟩, w)
    | .ok fullNameVal =>
      match cfg.GetKey "" "brand_icon" with
      | .error e => (.error ⟨configFile, .missingField e⟩, w)
      | .ok brandIconVal =>
        match cfg.GetKey "dbus" "name" with
        | .error e => (.error ⟨configFile, .missingField e⟩, w)
        | .ok dbusName =>
          match cfg.GetKey "dbus" "object" with
          | .error e => (.error ⟨configFile, .missingField e⟩, w)
          | .ok objectName =>
            match cfg.GetKey "dbus" "interface" with
            | .error e => (.error ⟨configFile, .missingField e⟩, w)
            | .ok interfaceName =>
              (.ok ({ dbusObject := bus.Object dbusName objectName,
                      interfaceName := interfaceName },
                    fullNameVal, brandIconVal), w)

/-- The Go method `NewSession`: calls the method on the broker bus and returns
the session ID and encryption key. -/
def dbusBroker.NewSession (b : dbusBroker) (ctx : Context) (username lang : String)
    (w : World) : (String × String × Option Error) × World :=
  let dbusMethod := b.interfaceName ++ ".NewSession"
  let r := b.dbusObject.CallWithContext ctx dbusMethod 0 [.str username, .str lang] w
  match r.1.Err with
  | some err => (("", "", some err), r.2)
  | none =>
    match w.store.strings r.1 "" "" with
    | (_, some err) => (("", "", some err), r.2)
    | ((sessionID, encryptionKey), none) => ((sessionID, encryptionKey, none), r.2)

/-- The Go method `GetAuthenticationModes`. -/
def dbusBroker.GetAuthenticationModes (b : dbusBroker) (ctx : Context) (sessionID : String)
    (supportedUILayouts : List (List (String × String))) (w : World) :
    (List (List (String × String)) × Option Error) × World :=
  let dbusMethod := b.interfaceName ++ ".GetAuthenticationModes"
  let r := b.dbusObject.CallWithContext ctx dbusMethod 0
    [.str sessionID, .dictList supportedUILayouts] w
  match r.1.Err with
  | some err => (([], some err), r.2)
  | none =>
    match w.store.dictList r.1 [] with
    | (_, some err) => (([], some err), r.2)
    | (authenticationModes, none) => ((authenticationModes, none), r.2)

/-- The Go method `SelectAuthenticationMode`. -/
def dbusBroker.SelectAuthenticationMode (b : dbusBroker) (ctx : Context)
    (sessionID authenticationModeName : String) (w : World) :
    (List (String × String) × Option Error) × World :=
  let dbusMethod := b.interfaceName ++ ".SelectAuthenticationMode"
  let r := b.dbusObject.CallWithContext ctx dbusMethod 0
    [.str sessionID, .str authenticationModeName] w
  match r.1.Err with
  | some err => (([], some err), r.2)
  | none =>
    match w.store.dict r.1 [] with
    | (_, some err) => (([], some err), r.2)
    | (uiLayoutInfo, none) => ((uiLayoutInfo, none), r.2)

/-- The Go method `IsAuthorized`; its context parameter is the blank `_`. -/
def dbusBroker.IsAuthorized (b : dbusBroker) (_ : Context)
    (sessionID authenticationData : String) (w : World) :
    (String × String × Option Error) × World :=
  let dbusMethod := b.interfaceName ++ ".IsAuthorized"
  let r := b.dbusObject.Call dbusMethod 0 [.str sessionID, .str authenticationData] w
  match r.1.Err with
  | some err => (("", "", some err), r.2)
  | none =>
    match w.store.strings r.1 "" "" with
    | (_, some err) => (("", "", some err), r.2)
    | ((access, infoUser), none) => ((access, infoUser, none), r.2)

/-- The Go method `EndSession`. -/
def dbusBroker.EndSession (b : dbusBroker) (ctx : Context) (sessionID : String)
    (w : World) : Option Error × World :=
  let dbusMethod := b.interfaceName ++ ".EndSession"
  let r := b.dbusObject.CallWithContext ctx dbusMethod 0 [.str sessionID] w
  match r.1.Err with
  | some err => (some err, r.2)
  | none => (none, r.2)

/-- The Go method `CancelIsAuthorized`: it has no result. -/
def dbusBroker.CancelIsAuthorized (b : dbusBroker) (ctx : Context) (sessionID : String)
    (w : World) : World :=
  let dbusMethod := b.interfaceName ++ ".CancelIsAuthorized"
  let r := b.dbusObject.Call dbusMethod 0 [.str sessionID] w
  match r.1.Err with
  | some err =>
    r.2.Errorf ctx "could not cancel IsAuthorized call for session %q: %v"
      [.str sessionID, .err err]
  | none => r.2

end Brokers

namespace Tempentries

/-! ## The pre-auth user registry

`preauth.go` is not among the sources at hand; only its test is. The registry is
therefore written from the specification of `TempIdentityRegistry`, with the
names the test uses. -/

/-- Modelled from the spec: `PreAuthUserEntry`, a provisional user record
(`preauth.go` is missing): the numeric identifier, the stable login name and
the generated pseudonymous display name. -/
structure PreAuthUserEntry where
  uid : Nat
  loginName : String
  name : String
deriving DecidableEq, Repr

/-- Modelled from the spec: the error taxonomy of the registry (`preauth.go` is
missing). -/
inductive RegistryError where
  | RegistryFullError
  | IdentifierExhaustedError
  | NotFoundError
deriving DecidableEq, Repr

/-- Modelled from the spec: `TempIdentityRegistry` (the Go type
`preAuthUserRecords` of the missing `preauth.go`): the injected identifier
source, the live entries (newest first) and the population counter. The
identifier source is the scripted sequence of candidates it will still supply,
as the `IDGeneratorMock` of the test. The counter is a Go `int`. -/
structure preAuthUserRecords where
  idGenerator : List Nat
  users : List PreAuthUserEntry
  numUsers : Int
deriving DecidableEq, Repr

/-- Modelled from the spec: explicit construction injecting the identifier
source (`newPreAuthUserRecords` of the missing `preauth.go`); no entry is live. -/
def newPreAuthUserRecords (idGenerator : List Nat) : preAuthUserRecords :=
  { idGenerator := idGenerator, users := [], numUsers := 0 }

/-- Modelled from the spec: `userByID` (missing `preauth.go`) returns the
matching live entry or fails with `NotFoundError`. -/
def preAuthUserRecords.userByID (r : preAuthUserRecords) (uid : Nat) :
    Except RegistryError PreAuthUserEntry :=
  match r.users.find? (fun e => e.uid == uid) with
  | some e => .ok e
  | none => .error .NotFoundError

/-- Modelled from the spec: `userByLogin` (missing `preauth.go`) returns the
matching live entry or fails with `NotFoundError`. -/
def preAuthUserRecords.userByLogin (r : preAuthUserRecords) (loginName : String) :
    Except RegistryError PreAuthUserEntry :=
  match r.users.find? (fun e => e.loginName == loginName) with
  | some e => .ok e
  | none => .error .NotFoundError

/-- Modelled from the spec: `userByName` (missing `preauth.go`) looks the entry
up under its generated display name or fails with `NotFoundError`. -/
def preAuthUserRecords.userByName (r : preAuthUserRecords) (name : String) :
    Except RegistryError PreAuthUserEntry :=
  match r.users.find? (fun e => e.name == name) with
  | some e => .ok e
  | none => .error .NotFoundError

/-- Modelled from the spec: a candidate identifier collides when it is the
identifier of a live entry, or 0, which is reserved and always treated as in
use (part of the missing `preauth.go`). -/
def preAuthUserRecords.inUse (r : preAuthUserRecords) (uid : Nat) : Bool :=
  uid == 0 || r.users.any (fun e => e.uid == uid)

/-- Modelled from the spec: step 3 of `RegisterPreAuthUser` (missing
`preauth.go`): candidates are requested from the identifier source one at a
time until one collides with no live entry. Gives the identifier found and
what the source has left, or `none` when the supply is exhausted. -/
def preAuthUserRecords.allocate (r : preAuthUserRecords) : List Nat → Option (Nat × List Nat)
  | [] => none
  | c :: rest => if r.inUse c then allocate r rest else some (c, rest)

/-- Modelled from the spec: `RegisterPreAuthUser` (missing `preauth.go`).
`MaxPreAuthUsers` is the configured maximum and `generatedName` the display
name generated for the entry should one be created.
1. an entry for `loginName` exists: its identifier, nothing else happens;
2. else the population has reached the maximum: `RegistryFullError`;
3. else the first candidate that collides with no live entry is taken,
   `IdentifierExhaustedError` when the source runs out;
4. the entry is inserted and the counter incremented. -/
def preAuthUserRecords.RegisterPreAuthUser (MaxPreAuthUsers : Int) (r : preAuthUserRecords)
    (loginName generatedName : String) : Except RegistryError Nat × preAuthUserRecords :=
  match r.userByLogin loginName with
  | .ok user => (.ok user.uid, r)
  | .error _ =>
    if r.numUsers ≥ MaxPreAuthUsers then (.error .RegistryFullError, r)
    else
      match r.allocate r.idGenerator with
      | none => (.error .IdentifierExhaustedError, { r with idGenerator := [] })
      | some (uid, rest) =>
        (.ok uid,
          { idGenerator := rest,
            users := { uid := uid, loginName := loginName, name := generatedName } :: r.users,
            numUsers := r.numUsers + 1 })

/-- Modelled from the spec: `deletePreAuthUser` (missing `preauth.go`) removes
the entry and decrements the population counter; for an identifier with no live
entry it is a silent no-op. It has no result. -/
def preAuthUserRecords.deletePreAuthUser (r : preAuthUserRecords) (uid : Nat) :
    preAuthUserRecords :=
  match r.userByID uid with
  | .error _ => r
  | .ok _ =>
    { r with users := r.users.filter (fun e => e.uid != uid), numUsers := r.numUsers - 1 }

/-- Consistency of the live entries. Modelled from the spec for its first two
parts, the data-model invariant: at most one live entry per identifier and at
most one per login name. The last two parts are what a lookup by display name
relies on and the spec leaves to the name generator: display names are pairwise
distinct and none is empty. -/
def preAuthUserRecords.Consistent (r : preAuthUserRecords) : Prop :=
  (r.users.map (fun e => e.uid)).Nodup ∧
  (r.users.map (fun e => e.loginName)).Nodup ∧
  (r.users.map (fun e => e.name)).Nodup ∧
  ∀ e ∈ r.users, e.name ≠ ""

instance (r : preAuthUserRecords) : Decidable r.Consistent := by
  unfold preAuthUserRecords.Consistent
  infer_instance

/-- What one registration asks of the name generator, which the spec leaves
open: when `loginName` has no live entry, so that a display name is generated
for a new entry, the generated name is non-empty and is not the display name
of a live entry. -/
def preAuthUserRecords.FreshName (r : preAuthUserRecords) (loginName generatedName : String) :
    Prop :=
  (∀ e ∈ r.users, e.loginName ≠ loginName) →
    generatedName ≠ "" ∧ ∀ e ∈ r.users, e.name ≠ generatedName

instance (r : preAuthUserRecords) (loginName generatedName : String) :
    Decidable (r.FreshName loginName generatedName) := by
  unfold preAuthUserRecords.FreshName
  infer_instance

/-- One call of a mutating operation of the registry: a registration, with the
display name the generator produces for it, or a deletion. -/
inductive Op where
  | register (loginName generatedName : String)
  | delete (uid : Nat)
deriving DecidableEq, Repr

/-- The registry after one operation. -/
def preAuthUserRecords.step (MaxPreAuthUsers : Int) (r : preAuthUserRecords) :
    Op → preAuthUserRecords
  | .register loginName generatedName =>
    (r.RegisterPreAuthUser MaxPreAuthUsers loginName generatedName).2
  | .delete uid => r.deletePreAuthUser uid

/-- The registry after a sequence of operations, first operation first. -/
def preAuthUserRecords.run (MaxPreAuthUsers : Int) (r : preAuthUserRecords) :
    List Op → preAuthUserRecords
  | [] => r
  | op :: ops => (r.step MaxPreAuthUsers op).run MaxPreAuthUsers ops

/-- Along a sequence of operations, every registration found the name generator
as `FreshName` asks, in the registry as it was at that moment. -/
def preAuthUserRecords.FreshNames (MaxPreAuthUsers : Int) (r : preAuthUserRecords) :
    List Op → Prop
  | [] => True
  | .register loginName generatedName :: ops =>
    r.FreshName loginName generatedName ∧
      (r.step MaxPreAuthUsers (.register loginName generatedName)).FreshNames
        MaxPreAuthUsers ops
  | .delete uid :: ops => (r.step MaxPreAuthUsers (.delete uid)).FreshNames MaxPreAuthUsers ops

end Tempentries

end Authd

/-! # Theorems -/

namespace Authd

namespace Brokers

/-! ## The world after each operation -/

theorem NewSession_world (b : dbusBroker) (ctx : Context) (username lang : String) (w : World) :
    (b.NewSession ctx username lang w).2 =
      { w with calls := w.calls ++ [{ object := b.dbusObject, context := some ctx,
                                      method := b.interfaceName ++ ".NewSession", flags := 0,
                                      args := [.str username, .str lang] }] } := by
  unfold dbusBroker.NewSession
  simp only [BusObject.CallWithContext, World.place]
  split
  · rfl
  · split <;> rfl

theorem GetAuthenticationModes_world (b : dbusBroker) (ctx : Context) (sessionID : String)
    (supportedUILayouts : List (List (String × String))) (w : World) :
    (b.GetAuthenticationModes ctx sessionID supportedUILayouts w).2 =
      { w with calls := w.calls ++ [{ object := b.dbusObject, context := some ctx,
                                      method := b.interfaceName ++ ".GetAuthenticationModes",
                                      flags := 0,
                                      args := [.str sessionID, .dictList supportedUILayouts] }] } := by
  unfold dbusBroker.GetAuthenticationModes
  simp only [BusObject.CallWithContext, World.place]
  split
  · rfl
  · split <;> rfl

theorem SelectAuthenticationMode_world (b : dbusBroker) (ctx : Context)
    (sessionID authenticationModeName : String) (w : World) :
    (b.SelectAuthenticationMode ctx sessionID authenticationModeName w).2 =
      { w with calls := w.calls ++ [{ object := b.dbusObject, context := some ctx,
                                      method := b.interfaceName ++ ".SelectAuthenticationMode",
                                      flags := 0,
                                      args := [.str sessionID, .str authenticationModeName] }] } := by
  unfold dbusBroker.SelectAuthenticationMode
  simp only [BusObject.CallWithContext, World.place]
  split
  · rfl
  · split <;> rfl

theorem IsAuthorized_world (b : dbusBroker) (ctx : Context)
    (sessionID authenticationData : String) (w : World) :
    (b.IsAuthorized ctx sessionID authenticationData w).2 =
      { w with calls := w.calls ++ [{ object := b.dbusObject, context := none,
                                      method := b.interfaceName ++ ".IsAuthorized", flags := 0,
                                      args := [.str sessionID, .str authenticationData] }] } := by
  unfold dbusBroker.IsAuthorized
  simp only [BusObject.Call, World.place]
  split
  · rfl
  · split <;> rfl

theorem EndSession_world (b : dbusBroker) (ctx : Context) (sessionID : String) (w : World) :
    (b.EndSession ctx sessionID w).2 =
      { w with calls := w.calls ++ [{ object := b.dbusObject, context := some ctx,
                                      method := b.interfaceName ++ ".EndSession", flags := 0,
                                      args := [.str sessionID] }] } := by
  unfold dbusBroker.EndSession
  simp only [BusObject.CallWithContext, World.place]
  split <;> rfl

theorem CancelIsAuthorized_calls (b : dbusBroker) (ctx : Context) (sessionID : String)
    (w : World) :
    (b.CancelIsAuthorized ctx sessionID w).calls =
      w.calls ++ [{ object := b.dbusObject, context := none,
                    method := b.interfaceName ++ ".CancelIsAuthorized", flags := 0,
                    args := [.str sessionID] }] := by
  unfold dbusBroker.CancelIsAuthorized
  simp only [BusObject.Call, World.place]
  split <;> rfl

/-! ## C6: the IPC method contract -/

/-- C6: each of the six broker operations places exactly one IPC call (the calls
recorded afterwards are those recorded before plus one), on the broker object,
with flags 0, whose method name is the interface name followed by a dot and the
name of the operation, and whose arguments are the arguments of the caller,
unchanged and in order. -/
theorem each_operation_places_one_call (b : dbusBroker) (ctx : Context) (w : World)
    (username lang sessionID authenticationModeName authenticationData : String)
    (supportedUILayouts : List (List (String × String))) :
    (∃ m, (b.NewSession ctx username lang w).2.calls = w.calls ++ [m] ∧
        m.object = b.dbusObject ∧ m.flags = 0 ∧
        m.method = b.interfaceName ++ "." ++ "NewSession" ∧
        m.args = [.str username, .str lang]) ∧
    (∃ m, (b.GetAuthenticationModes ctx sessionID supportedUILayouts w).2.calls = w.calls ++ [m] ∧
        m.object = b.dbusObject ∧ m.flags = 0 ∧
        m.method = b.interfaceName ++ "." ++ "GetAuthenticationModes" ∧
        m.args = [.str sessionID, .dictList supportedUILayouts]) ∧
    (∃ m, (b.SelectAuthenticationMode ctx sessionID authenticationModeName w).2.calls
          = w.calls ++ [m] ∧
        m.object = b.dbusObject ∧ m.flags = 0 ∧
        m.method = b.interfaceName ++ "." ++ "SelectAuthenticationMode" ∧
        m.args = [.str sessionID, .str authenticationModeName]) ∧
    (∃ m, (b.IsAuthorized ctx sessionID authenticationData w).2.calls = w.calls ++ [m] ∧
        m.object = b.dbusObject ∧ m.flags = 0 ∧
        m.method = b.interfaceName ++ "." ++ "IsAuthorized" ∧
        m.args = [.str sessionID, .str authenticationData]) ∧
    (∃ m, (b.EndSession ctx sessionID w).2.calls = w.calls ++ [m] ∧
        m.object = b.dbusObject ∧ m.flags = 0 ∧
        m.method = b.interfaceName ++ "." ++ "EndSession" ∧
        m.args = [.str sessionID]) ∧
    (∃ m, (b.CancelIsAuthorized ctx sessionID w).calls = w.calls ++ [m] ∧
        m.object = b.dbusObject ∧ m.flags = 0 ∧
        m.method = b.interfaceName ++ "." ++ "CancelIsAuthorized" ∧
        m.args = [.str sessionID]) := by
  have hdot : ∀ n : String, b.interfaceName ++ ("." ++ n) = b.interfaceName ++ "." ++ n :=
    fun n => (String.append_assoc _ _ _).symm
  refine ⟨?_, ?_, ?_, ?_, ?_, ?_⟩
  · exact ⟨_, congrArg World.calls (NewSession_world b ctx username lang w), rfl, rfl,
      hdot "NewSession", rfl⟩
  · exact ⟨_, congrArg World.calls (GetAuthenticationModes_world b ctx sessionID
      supportedUILayouts w), rfl, rfl, hdot "GetAuthenticationModes", rfl⟩
  · exact ⟨_, congrArg World.calls (SelectAuthenticationMode_world b ctx sessionID
      authenticationModeName w), rfl, rfl, hdot "SelectAuthenticationMode", rfl⟩
  · exact ⟨_, congrArg World.calls (IsAuthorized_world b ctx sessionID authenticationData w),
      rfl, rfl, hdot "IsAuthorized", rfl⟩
  · exact ⟨_, congrArg World.calls (EndSession_world b ctx sessionID w), rfl, rfl,
      hdot "EndSession", rfl⟩
  · exact ⟨_, CancelIsAuthorized_calls b ctx sessionID w, rfl, rfl,
      hdot "CancelIsAuthorized", rfl⟩

/-! ## What each decoding operation returns -/

theorem NewSession_result (b : dbusBroker) (ctx : Context) (username lang : String) (w : World)
    (c : Call)
    (hc : w.respond w.calls { object := b.dbusObject, context := some ctx,
                              method := b.interfaceName ++ ".NewSession", flags := 0,
                              args := [.str username, .str lang] } = c) :
    ((b.NewSession ctx username lang w).1.2.2 ≠ none ↔
      (c.Err ≠ none ∨ (w.store.strings c "" "").2 ≠ none)) ∧
    (∀ e, c.Err = some e → (b.NewSession ctx username lang w).1 = ("", "", some e)) ∧
    (∀ e, c.Err = none → (w.store.strings c "" "").2 = some e →
      (b.NewSession ctx username lang w).1 = ("", "", some e)) ∧
    (∀ sid key, c.Err = none → w.store.strings c "" "" = ((sid, key), none) →
      (b.NewSession ctx username lang w).1 = (sid, key, none)) := by
  have h2 : ∀ e, c.Err = some e → (b.NewSession ctx username lang w).1 = ("", "", some e) := by
    intro e he
    unfold dbusBroker.NewSession
    simp only [BusObject.CallWithContext, World.place, hc]
    simp [he]
  have h3 : ∀ e, c.Err = none → (w.store.strings c "" "").2 = some e →
      (b.NewSession ctx username lang w).1 = ("", "", some e) := by
    intro e he hs
    unfold dbusBroker.NewSession
    simp only [BusObject.CallWithContext, World.place, hc]
    rcases hst : w.store.strings c "" "" with ⟨x, _ | e2⟩
    · rw [hst] at hs; simp at hs
    · rw [hst] at hs
      simp only [he]
      simp at hs
      simp [hs]
  have h4 : ∀ sid key, c.Err = none → w.store.strings c "" "" = ((sid, key), none) →
      (b.NewSession ctx username lang w).1 = (sid, key, none) := by
    intro sid key he hst
    unfold dbusBroker.NewSession
    simp only [BusObject.CallWithContext, World.place, hc]
    simp only [he, hst]
  refine ⟨?_, h2, h3, h4⟩
  rcases hE : c.Err with _ | e
  · rcases hS : w.store.strings c "" "" with ⟨⟨sid, key⟩, _ | e2⟩
    · rw [h4 sid key hE hS]
      simp
    · rw [h3 e2 hE (by rw [hS])]
      simp
  · rw [h2 e hE]
    simp

theorem GetAuthenticationModes_result (b : dbusBroker) (ctx : Context) (sessionID : String)
    (supportedUILayouts : List (List (String × String))) (w : World)
    (c : Call)
    (hc : w.respond w.calls { object := b.dbusObject, context := some ctx,
                              method := b.interfaceName ++ ".GetAuthenticationModes", flags := 0,
                              args := [.str sessionID, .dictList supportedUILayouts] } = c) :
    ((b.GetAuthenticationModes ctx sessionID supportedUILayouts w).1.2 ≠ none ↔
      (c.Err ≠ none ∨ (w.store.dictList c []).2 ≠ none)) ∧
    (∀ e, c.Err = some e → (b.GetAuthenticationModes ctx sessionID supportedUILayouts w).1 = ([], some e)) ∧
    (∀ e, c.Err = none → (w.store.dictList c []).2 = some e →
      (b.GetAuthenticationModes ctx sessionID supportedUILayouts w).1 = ([], some e)) ∧
    (∀ modes, c.Err = none → w.store.dictList c [] = (modes, none) →
      (b.GetAuthenticationModes ctx sessionID supportedUILayouts w).1 = (modes, none)) := by
  have h2 : ∀ e, c.Err = some e → (b.GetAuthenticationModes ctx sessionID supportedUILayouts w).1 = ([], some e) := by
    intro e he
    unfold dbusBroker.GetAuthenticationModes
    simp only [BusObject.CallWithContext, World.place, hc]
    simp [he]
  have h3 : ∀ e, c.Err = none → (w.store.dictList c []).2 = some e →
      (b.GetAuthenticationModes ctx sessionID supportedUILayouts w).1 = ([], some e) := by
    intro e he hs
    unfold dbusBroker.GetAuthenticationModes
    simp only [BusObject.CallWithContext, World.place, hc]
    rcases hst : w.store.dictList c [] with ⟨x, _ | e2⟩
    · rw [hst] at hs; simp at hs
    · rw [hst] at hs
      simp only [he]
      simp at hs
      simp [hs]
  have h4 : ∀ modes, c.Err = none → w.store.dictList c [] = (modes, none) →
      (b.GetAuthenticationModes ctx sessionID supportedUILayouts w).1 = (modes, none) := by
    intro modes he hst
    unfold dbusBroker.GetAuthenticationModes
    simp only [BusObject.CallWithContext, World.place, hc]
    simp only [he, hst]
  refine ⟨?_, h2, h3, h4⟩
  rcases hE : c.Err with _ | e
  · rcases hS : w.store.dictList c [] with ⟨modes, _ | e2⟩
    · rw [h4 modes hE hS]
      simp
    · rw [h3 e2 hE (by rw [hS])]
      simp
  · rw [h2 e hE]
    simp

theorem SelectAuthenticationMode_result (b : dbusBroker) (ctx : Context) (sessionID authenticationModeName : String) (w : World)
    (c : Call)
    (hc : w.respond w.calls { object := b.dbusObject, context := some ctx,
                              method := b.interfaceName ++ ".SelectAuthenticationMode", flags := 0,
                              args := [.str sessionID, .str authenticationModeName] } = c) :
    ((b.SelectAuthenticationMode ctx sessionID authenticationModeName w).1.2 ≠ none ↔
      (c.Err ≠ none ∨ (w.store.dict c []).2 ≠ none)) ∧
    (∀ e, c.Err = some e → (b.SelectAuthenticationMode ctx sessionID authenticationModeName w).1 = ([], some e)) ∧
    (∀ e, c.Err = none → (w.store.dict c []).2 = some e →
      (b.SelectAuthenticationMode ctx sessionID authenticationModeName w).1 = ([], some e)) ∧
    (∀ layout, c.Err = none → w.store.dict c [] = (layout, none) →
      (b.SelectAuthenticationMode ctx sessionID authenticationModeName w).1 = (layout, none)) := by
  have h2 : ∀ e, c.Err = some e → (b.SelectAuthenticationMode ctx sessionID authenticationModeName w).1 = ([], some e) := by
    intro e he
    unfold dbusBroker.SelectAuthenticationMode
    simp only [BusObject.CallWithContext, World.place, hc]
    simp [he]
  have h3 : ∀ e, c.Err = none → (w.store.dict c []).2 = some e →
      (b.SelectAuthenticationMode ctx sessionID authenticationModeName w).1 = ([], some e) := by
    intro e he hs
    unfold dbusBroker.SelectAuthenticationMode
    simp only [BusObject.CallWithContext, World.place, hc]
    rcases hst : w.store.dict c [] with ⟨x, _ | e2⟩
    · rw [hst] at hs; simp at hs
    · rw [hst] at hs
      simp only [he]
      simp at hs
      simp [hs]
  have h4 : ∀ layout, c.Err = none → w.store.dict c [] = (layout, none) →
      (b.SelectAuthenticationMode ctx sessionID authenticationModeName w).1 = (layout, none) := by
    intro layout he hst
    unfold dbusBroker.SelectAuthenticationMode
    simp only [BusObject.CallWithContext, World.place, hc]
    simp only [he, hst]
  refine ⟨?_, h2, h3, h4⟩
  rcases hE : c.Err with _ | e
  · rcases hS : w.store.dict c [] with ⟨layout, _ | e2⟩
    · rw [h4 layout hE hS]
      simp
    · rw [h3 e2 hE (by rw [hS])]
      simp
  · rw [h2 e hE]
    simp

theorem IsAuthorized_result (b : dbusBroker) (ctx : Context) (sessionID authenticationData : String) (w : World)
    (c : Call)
    (hc : w.respond w.calls { object := b.dbusObject, context := none,
                              method := b.interfaceName ++ ".IsAuthorized", flags := 0,
                              args := [.str sessionID, .str authenticationData] } = c) :
    ((b.IsAuthorized ctx sessionID authenticationData w).1.2.2 ≠ none ↔
      (c.Err ≠ none ∨ (w.store.strings c "" "").2 ≠ none)) ∧
    (∀ e, c.Err = some e → (b.IsAuthorized ctx sessionID authenticationData w).1 = ("", "", some e)) ∧
    (∀ e, c.Err = none → (w.store.strings c "" "").2 = some e →
      (b.IsAuthorized ctx sessionID authenticationData w).1 = ("", "", some e)) ∧
    (∀ access infoUser, c.Err = none → w.store.strings c "" "" = ((access, infoUser), none) →
      (b.IsAuthorized ctx sessionID authenticationData w).1 = (access, infoUser, none)) := by
  have h2 : ∀ e, c.Err = some e → (b.IsAuthorized ctx sessionID authenticationData w).1 = ("", "", some e) := by
    intro e he
    unfold dbusBroker.IsAuthorized
    simp only [BusObject.Call, World.place, hc]
    simp [he]
  have h3 : ∀ e, c.Err = none → (w.store.strings c "" "").2 = some e →
      (b.IsAuthorized ctx sessionID authenticationData w).1 = ("", "", some e) := by
    intro e he hs
    unfold dbusBroker.IsAuthorized
    simp only [BusObject.Call, World.place, hc]
    rcases hst : w.store.strings c "" "" with ⟨x, _ | e2⟩
    · rw [hst] at hs; simp at hs
    · rw [hst] at hs
      simp only [he]
      simp at hs
      simp [hs]
  have h4 : ∀ access infoUser, c.Err = none → w.store.strings c "" "" = ((access, infoUser), none) →
      (b.IsAuthorized ctx sessionID authenticationData w).1 = (access, infoUser, none) := by
    intro access infoUser he hst
    unfold dbusBroker.IsAuthorized
    simp only [BusObject.Call, World.place, hc]
    simp only [he, hst]
  refine ⟨?_, h2, h3, h4⟩
  rcases hE : c.Err with _ | e
  · rcases hS : w.store.strings c "" "" with ⟨⟨access, infoUser⟩, _ | e2⟩
    · rw [h4 access infoUser hE hS]
      simp
    · rw [h3 e2 hE (by rw [hS])]
      simp
  · rw [h2 e hE]
    simp

/-! ## C7: errors and results of the four decoding operations -/

/-- C7: for NewSession, GetAuthenticationModes, SelectAuthenticationMode and
IsAuthorized, with `c` the reply of the bus to the call the operation places and
`Store` the decoder of the IPC library, whatever it accepts: the operation
returns an error exactly when `c` carries a fault or `Store` could not decode
`c` into the destinations; a fault of `c` is returned as it is, next to zero
values; the error of `Store` is returned as it is, next to zero values, whatever
`Store` had already written into the destinations; and when `Store` succeeds
the operation returns, without error, exactly the decoded values in the order
of the destinations (session token then encryption key; access then user
information). -/
theorem decoding_operations_error_iff_fault_or_decode_failure (b : dbusBroker) (ctx : Context)
    (w : World) (username lang sessionID authenticationModeName authenticationData : String)
    (supportedUILayouts : List (List (String × String))) :
    (∀ c, w.respond w.calls { object := b.dbusObject, context := some ctx,
                              method := b.interfaceName ++ ".NewSession", flags := 0,
                              args := [.str username, .str lang] } = c →
      ((b.NewSession ctx username lang w).1.2.2 ≠ none ↔
        (c.Err ≠ none ∨ (w.store.strings c "" "").2 ≠ none)) ∧
      (∀ e, c.Err = some e →
        (b.NewSession ctx username lang w).1 = ("", "", some e)) ∧
      (∀ e, c.Err = none → (w.store.strings c "" "").2 = some e →
        (b.NewSession ctx username lang w).1 = ("", "", some e)) ∧
      (∀ sid key, c.Err = none → w.store.strings c "" "" = ((sid, key), none) →
        (b.NewSession ctx username lang w).1 = (sid, key, none))) ∧
    (∀ c, w.respond w.calls { object := b.dbusObject, context := some ctx,
                              method := b.interfaceName ++ ".GetAuthenticationModes", flags := 0,
                              args := [.str sessionID, .dictList supportedUILayouts] } = c →
      ((b.GetAuthenticationModes ctx sessionID supportedUILayouts w).1.2 ≠ none ↔
        (c.Err ≠ none ∨ (w.store.dictList c []).2 ≠ none)) ∧
      (∀ e, c.Err = some e →
        (b.GetAuthenticationModes ctx sessionID supportedUILayouts w).1 = ([], some e)) ∧
      (∀ e, c.Err = none → (w.store.dictList c []).2 = some e →
        (b.GetAuthenticationModes ctx sessionID supportedUILayouts w).1 = ([], some e)) ∧
      (∀ modes, c.Err = none → w.store.dictList c [] = (modes, none) →
        (b.GetAuthenticationModes ctx sessionID supportedUILayouts w).1 = (modes, none))) ∧
    (∀ c, w.respond w.calls { object := b.dbusObject, context := some ctx,
                              method := b.interfaceName ++ ".SelectAuthenticationMode", flags := 0,
                              args := [.str sessionID, .str authenticationModeName] } = c →
      ((b.SelectAuthenticationMode ctx sessionID authenticationModeName w).1.2 ≠ none ↔
        (c.Err ≠ none ∨ (w.store.dict c []).2 ≠ none)) ∧
      (∀ e, c.Err = some e →
        (b.SelectAuthenticationMode ctx sessionID authenticationModeName w).1 = ([], some e)) ∧
      (∀ e, c.Err = none → (w.store.dict c []).2 = some e →
        (b.SelectAuthenticationMode ctx sessionID authenticationModeName w).1 = ([], some e)) ∧
      (∀ layout, c.Err = none → w.store.dict c [] = (layout, none) →
        (b.SelectAuthenticationMode ctx sessionID authenticationModeName w).1 = (layout, none))) ∧
    (∀ c, w.respond w.calls { object := b.dbusObject, context := none,
                              method := b.interfaceName ++ ".IsAuthorized", flags := 0,
                              args := [.str sessionID, .str authenticationData] } = c →
      ((b.IsAuthorized ctx sessionID authenticationData w).1.2.2 ≠ none ↔
        (c.Err ≠ none ∨ (w.store.strings c "" "").2 ≠ none)) ∧
      (∀ e, c.Err = some e →
        (b.IsAuthorized ctx sessionID authenticationData w).1 = ("", "", some e)) ∧
      (∀ e, c.Err = none → (w.store.strings c "" "").2 = some e →
        (b.IsAuthorized ctx sessionID authenticationData w).1 = ("", "", some e)) ∧
      (∀ access infoUser, c.Err = none → w.store.strings c "" "" = ((access, infoUser), none) →
        (b.IsAuthorized ctx sessionID authenticationData w).1 = (access, infoUser, none))) :=
  ⟨fun c hc => NewSession_result b ctx username lang w c hc,
   fun c hc => GetAuthenticationModes_result b ctx sessionID supportedUILayouts w c hc,
   fun c hc => SelectAuthenticationMode_result b ctx sessionID authenticationModeName w c hc,
   fun c hc => IsAuthorized_result b ctx sessionID authenticationData w c hc⟩

/-- A decoder that fails at the second value after it has written the first
destination: NewSession still hands back two empty strings next to the error. -/
theorem new_session_drops_half_decoded_reply :
    (dbusBroker.NewSession
        { dbusObject := { conn := { id := 1 }, dest := "com.example", path := "/com/example" },
          interfaceName := "com.example" }
        { id := 0, done := false } "user" "C"
        { respond := fun _ _ => { Err := none, Body := [.str "sid", .other 0] },
          store := { strings := fun _ _ d2 => (("sid", d2), some (.decode "second value")),
                     dictList := fun _ d => (d, none),
                     dict := fun _ d => (d, none) },
          calls := [], logs := [] }).1
      = ("", "", some (.decode "second value")) :=
  rfl

/-! ## C9: best-effort cancellation, fallible EndSession -/

/-- C9: CancelIsAuthorized has no result, so it cannot propagate a failure. It
places one CancelIsAuthorized call with the session token and leaves the log as
it was exactly when the call did not fault; when the call faulted with `e` it
appends one error entry carrying the session token and `e`. EndSession returns
exactly the fault of its call: an error if and only if the call faulted. -/
theorem cancel_never_fails_and_end_session_returns_fault (b : dbusBroker) (ctx : Context)
    (sessionID : String) (w : World) :
    (∀ c, w.respond w.calls { object := b.dbusObject, context := none,
                              method := b.interfaceName ++ ".CancelIsAuthorized", flags := 0,
                              args := [.str sessionID] } = c →
      (b.CancelIsAuthorized ctx sessionID w).calls =
        w.calls ++ [{ object := b.dbusObject, context := none,
                      method := b.interfaceName ++ ".CancelIsAuthorized", flags := 0,
                      args := [.str sessionID] }] ∧
      ((b.CancelIsAuthorized ctx sessionID w).logs = w.logs ↔ c.Err = none) ∧
      (∀ e, c.Err = some e →
        (b.CancelIsAuthorized ctx sessionID w).logs =
          w.logs ++ [{ level := .error, ctx := ctx,
                       format := "could not cancel IsAuthorized call for session %q: %v",
                       args := [.str sessionID, .err e] }])) ∧
    (∀ c, w.respond w.calls { object := b.dbusObject, context := some ctx,
                              method := b.interfaceName ++ ".EndSession", flags := 0,
                              args := [.str sessionID] } = c →
      (b.EndSession ctx sessionID w).1 = c.Err ∧
      ((b.EndSession ctx sessionID w).1 ≠ none ↔ c.Err ≠ none)) := by
  constructor
  · intro c hc
    refine ⟨CancelIsAuthorized_calls b ctx sessionID w, ?_, ?_⟩
    · unfold dbusBroker.CancelIsAuthorized
      simp only [BusObject.Call, World.place, hc]
      rcases hE : c.Err with _ | e
      · simp
      · simp [World.Errorf]
    · intro e he
      unfold dbusBroker.CancelIsAuthorized
      simp only [BusObject.Call, World.place, hc]
      simp [he, World.Errorf]
  · intro c hc
    have h : (b.EndSession ctx sessionID w).1 = c.Err := by
      unfold dbusBroker.EndSession
      simp only [BusObject.CallWithContext, World.place, hc]
      rcases hE : c.Err with _ | e <;> simp
    exact ⟨h, by rw [h]⟩

/-! ## C10: which calls carry the context of the caller -/

/-- C10: IsAuthorized does not depend on the context it is given: for any two
contexts, with the same broker, session token, authentication data and world, it
returns the same results and leaves the same world, and the call it places
carries no context. NewSession, GetAuthenticationModes, SelectAuthenticationMode
and EndSession place their call with the context of the caller. -/
theorem is_authorized_ignores_context (b : dbusBroker) (ctx ctx1 ctx2 : Context) (w : World)
    (username lang sessionID authenticationModeName authenticationData : String)
    (supportedUILayouts : List (List (String × String))) :
    b.IsAuthorized ctx1 sessionID authenticationData w
      = b.IsAuthorized ctx2 sessionID authenticationData w ∧
    (∃ m, (b.IsAuthorized ctx1 sessionID authenticationData w).2.calls = w.calls ++ [m] ∧
        m.context = none) ∧
    (∃ m, (b.NewSession ctx username lang w).2.calls = w.calls ++ [m] ∧
        m.context = some ctx) ∧
    (∃ m, (b.GetAuthenticationModes ctx sessionID supportedUILayouts w).2.calls
          = w.calls ++ [m] ∧
        m.context = some ctx) ∧
    (∃ m, (b.SelectAuthenticationMode ctx sessionID authenticationModeName w).2.calls
          = w.calls ++ [m] ∧
        m.context = some ctx) ∧
    (∃ m, (b.EndSession ctx sessionID w).2.calls = w.calls ++ [m] ∧
        m.context = some ctx) := by
  refine ⟨rfl, ?_, ?_, ?_, ?_, ?_⟩
  · exact ⟨_, congrArg World.calls (IsAuthorized_world b ctx1 sessionID authenticationData w),
      rfl⟩
  · exact ⟨_, congrArg World.calls (NewSession_world b ctx username lang w), rfl⟩
  · exact ⟨_, congrArg World.calls (GetAuthenticationModes_world b ctx sessionID
      supportedUILayouts w), rfl⟩
  · exact ⟨_, congrArg World.calls (SelectAuthenticationMode_world b ctx sessionID
      authenticationModeName w), rfl⟩
  · exact ⟨_, congrArg World.calls (EndSession_world b ctx sessionID w), rfl⟩

/-! ## C3: construction from the configuration file -/

/-- C3: when the configuration file loads, `newDbusBroker` returns an error if
and only if one of the five keys is missing (`name` and `brand_icon` at top
level, `name`, `object` and `interface` in section `dbus`); the error then
carries the section and key of one of the five that is indeed missing; and when
all five are present it returns the `name` value as full name, the `brand_icon`
value as brand icon, and a broker whose interface name is the `dbus.interface`
value and whose object is the bus object at `dbus.name`, `dbus.object`. -/
theorem newDbusBroker_error_iff_field_missing (load : String → Except String IniFile)
    (ctx : Context) (bus : Conn) (configFile : String) (w : World) (cfg : IniFile)
    (hload : load configFile = .ok cfg) :
    ((∃ e, (newDbusBroker load ctx bus configFile w).1 = .error e) ↔
      (cfg.keys "" "name" = none ∨ cfg.keys "" "brand_icon" = none ∨
        cfg.keys "dbus" "name" = none ∨ cfg.keys "dbus" "object" = none ∨
        cfg.keys "dbus" "interface" = none)) ∧
    (∀ e, (newDbusBroker load ctx bus configFile w).1 = .error e →
      ∃ s k, e = { configFile := configFile,
                   cause := .missingField { sectionName := s, key := k } } ∧
        cfg.keys s k = none ∧
        (s, k) ∈ [("", "name"), ("", "brand_icon"), ("dbus", "name"), ("dbus", "object"),
                  ("dbus", "interface")]) ∧
    (∀ fullName brandIcon dbusName objectName interfaceName,
      cfg.keys "" "name" = some fullName → cfg.keys "" "brand_icon" = some brandIcon →
      cfg.keys "dbus" "name" = some dbusName → cfg.keys "dbus" "object" = some objectName →
      cfg.keys "dbus" "interface" = some interfaceName →
      (newDbusBroker load ctx bus configFile w).1 =
        .ok ({ dbusObject := { conn := bus, dest := dbusName, path := objectName },
               interfaceName := interfaceName }, fullName, brandIcon)) := by
  unfold newDbusBroker
  simp only [hload, IniFile.GetKey]
  rcases h1 : cfg.keys "" "name" with _ | v1
  · simp [h1]
    exact ⟨"", "name", ⟨rfl, rfl⟩, h1, by simp⟩
  rcases h2 : cfg.keys "" "brand_icon" with _ | v2
  · simp [h2]
    exact ⟨"", "brand_icon", ⟨rfl, rfl⟩, h2, by simp⟩
  rcases h3 : cfg.keys "dbus" "name" with _ | v3
  · simp [h3]
    exact ⟨"dbus", "name", ⟨rfl, rfl⟩, h3, by simp⟩
  rcases h4 : cfg.keys "dbus" "object" with _ | v4
  · simp [h4]
    exact ⟨"dbus", "object", ⟨rfl, rfl⟩, h4, by simp⟩
  rcases h5 : cfg.keys "dbus" "interface" with _ | v5
  · simp [h5]
    exact ⟨"dbus", "interface", ⟨rfl, rfl⟩, h5, by simp⟩
  simp [Conn.Object]
  intro _ _ _ _ _ e1 e2 e3 e4 e5
  exact ⟨⟨⟨e3, e4⟩, e5⟩, e1, e2⟩

/-- Witness for C3: a configuration with all five keys gives the broker, and
the theorem applies to it. -/
theorem newDbusBroker_error_iff_field_missing_witness :
    (newDbusBroker
        (fun _ => .ok { keys := fun s k =>
          if s = "" ∧ k = "name" then some "ExampleBroker"
          else if s = "" ∧ k = "brand_icon" then some "/usr/share/icon.png"
          else if s = "dbus" ∧ k = "name" then some "com.ubuntu.authd.ExampleBroker"
          else if s = "dbus" ∧ k = "object" then some "/com/ubuntu/authd/ExampleBroker"
          else if s = "dbus" ∧ k = "interface" then some "com.ubuntu.authd.ExampleBroker"
          else none })
        { id := 0, done := false } { id := 1 } "/etc/authd/broker.d/example.conf"
        { respond := fun _ _ => { Err := none, Body := [] },
          store := { strings := fun _ d1 d2 => ((d1, d2), none),
                     dictList := fun _ d => (d, none),
                     dict := fun _ d => (d, none) },
          calls := [], logs := [] }).1 =
      .ok ({ dbusObject := { conn := { id := 1 }, dest := "com.ubuntu.authd.ExampleBroker",
                             path := "/com/ubuntu/authd/ExampleBroker" },
             interfaceName := "com.ubuntu.authd.ExampleBroker" },
           "ExampleBroker", "/usr/share/icon.png") :=
  (newDbusBroker_error_iff_field_missing
      (fun _ => .ok { keys := fun s k =>
        if s = "" ∧ k = "name" then some "ExampleBroker"
        else if s = "" ∧ k = "brand_icon" then some "/usr/share/icon.png"
        else if s = "dbus" ∧ k = "name" then some "com.ubuntu.authd.ExampleBroker"
        else if s = "dbus" ∧ k = "object" then some "/com/ubuntu/authd/ExampleBroker"
        else if s = "dbus" ∧ k = "interface" then some "com.ubuntu.authd.ExampleBroker"
        else none })
      { id := 0, done := false } { id := 1 } "/etc/authd/broker.d/example.conf"
      { respond := fun _ _ => { Err := none, Body := [] },
          store := { strings := fun _ d1 d2 => ((d1, d2), none),
                     dictList := fun _ d => (d, none),
                     dict := fun _ d => (d, none) },
          calls := [], logs := [] }
      _ rfl).2.2 _ _ _ _ _ (by decide) (by decide) (by decide) (by decide) (by decide)

end Brokers

namespace Tempentries

/-! ## Lookups -/

theorem find_key_of_nodup {α β : Type} [DecidableEq β] (f : α → β) (l : List α)
    (hn : (l.map f).Nodup) (e : α) (he : e ∈ l) :
    l.find? (fun x => f x == f e) = some e := by
  induction l with
  | nil => simp at he
  | cons a t ih =>
    rw [List.map_cons, List.nodup_cons] at hn
    rcases List.mem_cons.1 he with rfl | het
    · simp
    · have hne : f a ≠ f e := by
        intro h
        exact hn.1 (h ▸ List.mem_map_of_mem f het)
      rw [List.find?_cons_of_neg _ (by simpa using hne)]
      exact ih hn.2 het

theorem find_key_none {α β : Type} [DecidableEq β] (f : α → β) (l : List α) (k : β) :
    l.find? (fun x => f x == k) = none ↔ ∀ x ∈ l, f x ≠ k := by
  simp [List.find?_eq_none]

theorem userByLogin_ok {r : preAuthUserRecords} {loginName : String} {e : PreAuthUserEntry}
    (h : r.userByLogin loginName = .ok e) : e ∈ r.users ∧ e.loginName = loginName := by
  unfold preAuthUserRecords.userByLogin at h
  rcases hf : r.users.find? (fun e => e.loginName == loginName) with _ | x
  · rw [hf] at h; simp at h
  · rw [hf] at h
    simp only [Except.ok.injEq] at h
    subst h
    exact ⟨List.mem_of_find?_eq_some hf, by simpa using List.find?_some hf⟩

theorem userByLogin_error {r : preAuthUserRecords} {loginName : String} {err : RegistryError}
    (h : r.userByLogin loginName = .error err) :
    err = .NotFoundError ∧ ∀ e ∈ r.users, e.loginName ≠ loginName := by
  unfold preAuthUserRecords.userByLogin at h
  rcases hf : r.users.find? (fun e => e.loginName == loginName) with _ | x
  · rw [hf] at h
    simp only [Except.error.injEq] at h
    exact ⟨h.symm, (find_key_none _ _ _).1 hf⟩
  · rw [hf] at h; simp at h

theorem userByLogin_of_absent {r : preAuthUserRecords} {loginName : String}
    (h : ∀ e ∈ r.users, e.loginName ≠ loginName) :
    r.userByLogin loginName = .error .NotFoundError := by
  unfold preAuthUserRecords.userByLogin
  rw [(find_key_none (fun e : PreAuthUserEntry => e.loginName) r.users loginName).2 h]

theorem userByID_of_absent {r : preAuthUserRecords} {uid : Nat}
    (h : ∀ e ∈ r.users, e.uid ≠ uid) : r.userByID uid = .error .NotFoundError := by
  unfold preAuthUserRecords.userByID
  rw [(find_key_none (fun e : PreAuthUserEntry => e.uid) r.users uid).2 h]

theorem userByName_of_absent {r : preAuthUserRecords} {name : String}
    (h : ∀ e ∈ r.users, e.name ≠ name) : r.userByName name = .error .NotFoundError := by
  unfold preAuthUserRecords.userByName
  rw [(find_key_none (fun e : PreAuthUserEntry => e.name) r.users name).2 h]

/-! ## Allocation of an identifier -/

theorem inUse_false_iff (r : preAuthUserRecords) (uid : Nat) :
    r.inUse uid = false ↔ uid ≠ 0 ∧ ∀ e ∈ r.users, e.uid ≠ uid := by
  simp [preAuthUserRecords.inUse]

theorem allocate_free (r : preAuthUserRecords) (ids : List Nat) (uid : Nat) (rest : List Nat)
    (h : r.allocate ids = some (uid, rest)) : uid ≠ 0 ∧ ∀ e ∈ r.users, e.uid ≠ uid := by
  induction ids with
  | nil => simp [preAuthUserRecords.allocate] at h
  | cons c t ih =>
    unfold preAuthUserRecords.allocate at h
    by_cases hc : r.inUse c = true
    · rw [if_pos hc] at h
      exact ih h
    · rw [if_neg hc] at h
      simp only [Option.some.injEq, Prod.mk.injEq] at h
      rw [← h.1]
      exact (inUse_false_iff r c).1 (by simpa using hc)

/-! ## The paths of `RegisterPreAuthUser` -/

theorem register_existing (MaxPreAuthUsers : Int) (r : preAuthUserRecords)
    (loginName generatedName : String) (e : PreAuthUserEntry)
    (h : r.userByLogin loginName = .ok e) :
    r.RegisterPreAuthUser MaxPreAuthUsers loginName generatedName = (.ok e.uid, r) := by
  unfold preAuthUserRecords.RegisterPreAuthUser
  rw [h]

theorem register_new (MaxPreAuthUsers : Int) (r : preAuthUserRecords)
    (loginName generatedName : String) (h : ∀ e ∈ r.users, e.loginName ≠ loginName) :
    r.RegisterPreAuthUser MaxPreAuthUsers loginName generatedName =
      if r.numUsers ≥ MaxPreAuthUsers then (.error .RegistryFullError, r)
      else
        match r.allocate r.idGenerator with
        | none => (.error .IdentifierExhaustedError, { r with idGenerator := [] })
        | some (uid, rest) =>
          (.ok uid,
            { idGenerator := rest,
              users := { uid := uid, loginName := loginName, name := generatedName } :: r.users,
              numUsers := r.numUsers + 1 }) := by
  unfold preAuthUserRecords.RegisterPreAuthUser
  rw [userByLogin_of_absent h]

theorem register_ok_cases (MaxPreAuthUsers : Int) (r : preAuthUserRecords)
    (loginName generatedName : String) (U : Nat)
    (h : (r.RegisterPreAuthUser MaxPreAuthUsers loginName generatedName).1 = .ok U) :
    (∃ e, r.userByLogin loginName = .ok e ∧ e.uid = U ∧
      r.RegisterPreAuthUser MaxPreAuthUsers loginName generatedName = (.ok U, r)) ∨
    ((∀ e ∈ r.users, e.loginName ≠ loginName) ∧ r.numUsers < MaxPreAuthUsers ∧
      ∃ rest, r.allocate r.idGenerator = some (U, rest) ∧
        r.RegisterPreAuthUser MaxPreAuthUsers loginName generatedName =
          (.ok U,
            { idGenerator := rest,
              users := { uid := U, loginName := loginName, name := generatedName } :: r.users,
              numUsers := r.numUsers + 1 })) := by
  rcases hl : r.userByLogin loginName with err | e
  · right
    have habs := (userByLogin_error hl).2
    rw [register_new _ _ _ _ habs] at h ⊢
    by_cases hcap : r.numUsers ≥ MaxPreAuthUsers
    · rw [if_pos hcap] at h; simp at h
    · rw [if_neg hcap] at h ⊢
      refine ⟨habs, lt_of_not_ge hcap, ?_⟩
      rcases ha : r.allocate r.idGenerator with _ | ⟨uid, rest⟩
      · rw [ha] at h; simp at h
      · rw [ha] at h
        simp only [Except.ok.injEq] at h
        subst h
        exact ⟨rest, rfl, rfl⟩
  · left
    have heq := register_existing MaxPreAuthUsers r loginName generatedName e hl
    rw [heq] at h
    simp only [Except.ok.injEq] at h
    exact ⟨e, rfl, h, by rw [heq, h]⟩

/-! ## C1: idempotent registration -/

/-- C1: if `RegisterPreAuthUser(L)` succeeds with identifier `U`, then
registering `L` again right away (whatever display name would be generated)
succeeds with the same `U` and leaves the registry exactly as it was: the same
entries, the same population counter, and an identifier source from which
nothing more was requested. -/
theorem register_twice_same_identifier (MaxPreAuthUsers : Int) (r : preAuthUserRecords)
    (L name1 name2 : String) (U : Nat)
    (h : (r.RegisterPreAuthUser MaxPreAuthUsers L name1).1 = .ok U) :
    (r.RegisterPreAuthUser MaxPreAuthUsers L name1).2.RegisterPreAuthUser MaxPreAuthUsers L name2
      = (.ok U, (r.RegisterPreAuthUser MaxPreAuthUsers L name1).2) := by
  rcases register_ok_cases MaxPreAuthUsers r L name1 U h with ⟨e, hl, hu, heq⟩ | ⟨-, -, rest, -, heq⟩
  · rw [heq]
    have := register_existing MaxPreAuthUsers r L name2 e hl
    rw [hu] at this
    exact this
  · rw [heq]
    exact register_existing MaxPreAuthUsers _ L name2 { uid := U, loginName := L, name := name1 }
      (by simp [preAuthUserRecords.userByLogin])

/-- Witness for C1: the scenario of the test, an identifier source yielding
12345 and the login name registered twice. -/
theorem register_twice_same_identifier_witness :
    ((newPreAuthUserRecords [12345]).RegisterPreAuthUser 4096 "test" "tmp-a").2.RegisterPreAuthUser
        4096 "test" "tmp-b"
      = (.ok 12345,
          { idGenerator := [],
            users := [{ uid := 12345, loginName := "test", name := "tmp-a" }],
            numUsers := 1 }) :=
  register_twice_same_identifier 4096 (newPreAuthUserRecords [12345]) "test" "tmp-a" "tmp-b"
    12345 rfl

/-! ## C2: capacity enforcement -/

/-- C2: when the population counter equals the configured maximum,
`RegisterPreAuthUser(L)` succeeds if and only if `L` has a live entry; for a
login name with no live entry it fails with `RegistryFullError` and the registry
is unchanged; for a login name that `userByLogin` finds it returns the identifier
of that entry and the registry is unchanged. -/
theorem register_at_capacity (MaxPreAuthUsers : Int) (r : preAuthUserRecords)
    (L name : String) (hfull : r.numUsers = MaxPreAuthUsers) :
    ((∃ U, (r.RegisterPreAuthUser MaxPreAuthUsers L name).1 = .ok U) ↔
      ∃ e ∈ r.users, e.loginName = L) ∧
    ((∀ e ∈ r.users, e.loginName ≠ L) →
      r.RegisterPreAuthUser MaxPreAuthUsers L name = (.error .RegistryFullError, r)) ∧
    (∀ e, r.userByLogin L = .ok e →
      r.RegisterPreAuthUser MaxPreAuthUsers L name = (.ok e.uid, r)) := by
  have hnew : (∀ e ∈ r.users, e.loginName ≠ L) →
      r.RegisterPreAuthUser MaxPreAuthUsers L name = (.error .RegistryFullError, r) := by
    intro habs
    rw [register_new _ _ _ _ habs, if_pos (le_of_eq hfull.symm)]
  refine ⟨⟨?_, ?_⟩, hnew, fun e he => register_existing MaxPreAuthUsers r L name e he⟩
  · rintro ⟨U, hU⟩
    by_contra hno
    have habs : ∀ e ∈ r.users, e.loginName ≠ L := fun e he hL => hno ⟨e, he, hL⟩
    rw [hnew habs] at hU
    simp at hU
  · rintro ⟨e, he, hL⟩
    rcases hl : r.userByLogin L with err | x
    · exact absurd hL ((userByLogin_error hl).2 e he)
    · exact ⟨x.uid, by rw [register_existing MaxPreAuthUsers r L name x hl]⟩

/-- Witness for C2: a registry at its maximum of two, asked for a login name
that has no live entry, rejects it and stays as it was. -/
theorem register_at_capacity_witness :
    preAuthUserRecords.RegisterPreAuthUser 2
        { idGenerator := [7],
          users := [{ uid := 5, loginName := "bob", name := "tmp-b" },
                    { uid := 3, loginName := "alice", name := "tmp-a" }],
          numUsers := 2 } "carol" "tmp-c"
      = (.error .RegistryFullError,
          { idGenerator := [7],
            users := [{ uid := 5, loginName := "bob", name := "tmp-b" },
                      { uid := 3, loginName := "alice", name := "tmp-a" }],
            numUsers := 2 }) :=
  (register_at_capacity 2
      { idGenerator := [7],
        users := [{ uid := 5, loginName := "bob", name := "tmp-b" },
                  { uid := 3, loginName := "alice", name := "tmp-a" }],
        numUsers := 2 } "carol" "tmp-c" rfl).2.1 (by decide)

/-! ## C4: collision avoidance -/

/-- C4: for a login name with no live entry and a population below the maximum:
if the identifier source yields 0 and then `K`, with `K` non-zero and not the
identifier of a live entry, `RegisterPreAuthUser` returns `K`, the new entry is
stored under `K` (and `userByID K` finds it), the population counter grows by
exactly one and the source is left with what followed `K`; and whatever the
source yields, an identifier returned is never 0 and never the identifier of an
entry that was already live. -/
theorem register_skips_colliding_identifiers (MaxPreAuthUsers : Int) (r : preAuthUserRecords)
    (L name : String) (hnew : ∀ e ∈ r.users, e.loginName ≠ L)
    (hcap : r.numUsers < MaxPreAuthUsers) :
    (∀ K rest, r.idGenerator = 0 :: K :: rest → K ≠ 0 → (∀ e ∈ r.users, e.uid ≠ K) →
      r.RegisterPreAuthUser MaxPreAuthUsers L name =
        (.ok K,
          { idGenerator := rest,
            users := { uid := K, loginName := L, name := name } :: r.users,
            numUsers := r.numUsers + 1 }) ∧
      (r.RegisterPreAuthUser MaxPreAuthUsers L name).2.userByID K =
        .ok { uid := K, loginName := L, name := name }) ∧
    (∀ U, (r.RegisterPreAuthUser MaxPreAuthUsers L name).1 = .ok U →
      U ≠ 0 ∧ ∀ e ∈ r.users, e.uid ≠ U) := by
  constructor
  · intro K rest hids hK hfree
    have halloc : r.allocate r.idGenerator = some (K, rest) := by
      rw [hids]
      have h0 : r.inUse 0 = true := by simp [preAuthUserRecords.inUse]
      have hKf : r.inUse K = false := (inUse_false_iff r K).2 ⟨hK, hfree⟩
      simp [preAuthUserRecords.allocate, h0, hKf]
    have heq : r.RegisterPreAuthUser MaxPreAuthUsers L name =
        (.ok K,
          { idGenerator := rest,
            users := { uid := K, loginName := L, name := name } :: r.users,
            numUsers := r.numUsers + 1 }) := by
      rw [register_new _ _ _ _ hnew, if_neg (not_le_of_lt hcap), halloc]
    refine ⟨heq, ?_⟩
    rw [heq]
    simp [preAuthUserRecords.userByID]
  · intro U hU
    rcases register_ok_cases MaxPreAuthUsers r L name U hU with
      ⟨e, hl, -, -⟩ | ⟨-, -, rest, ha, -⟩
    · exact absurd (userByLogin_ok hl).2 (hnew e (userByLogin_ok hl).1)
    · exact allocate_free r r.idGenerator U rest ha

/-- Witness for C4: the scenario of the test, a fresh registry whose identifier
source yields 0 and then 12345. -/
theorem register_skips_colliding_identifiers_witness :
    (newPreAuthUserRecords [0, 12345]).RegisterPreAuthUser 4096 "test" "tmp-a"
      = (.ok 12345,
          { idGenerator := [],
            users := [{ uid := 12345, loginName := "test", name := "tmp-a" }],
            numUsers := 0 + 1 }) :=
  ((register_skips_colliding_identifiers 4096 (newPreAuthUserRecords [0, 12345]) "test" "tmp-a"
      (by simp [newPreAuthUserRecords]) (by decide)).1 12345 [] rfl (by decide)
      (by simp [newPreAuthUserRecords])).1

/-! ## C8: deleting an identifier that is not live -/

theorem delete_absent (r : preAuthUserRecords) (U : Nat) (h : ∀ e ∈ r.users, e.uid ≠ U) :
    r.deletePreAuthUser U = r := by
  unfold preAuthUserRecords.deletePreAuthUser
  rw [userByID_of_absent h]

theorem delete_removes (r : preAuthUserRecords) (U : Nat) :
    ∀ e ∈ (r.deletePreAuthUser U).users, e.uid ≠ U := by
  intro e he
  unfold preAuthUserRecords.deletePreAuthUser at he
  rcases hl : r.userByID U with err | x
  · rw [hl] at he
    unfold preAuthUserRecords.userByID at hl
    rcases hf : r.users.find? (fun e => e.uid == U) with _ | y
    · exact (find_key_none (fun e : PreAuthUserEntry => e.uid) r.users U).1 hf e he
    · rw [hf] at hl; simp at hl
  · rw [hl] at he
    simp only [List.mem_filter] at he
    simpa using he.2

/-- C8: `deletePreAuthUser` has no error result; for an identifier `U` with no
live entry it returns the registry unchanged (same entries, hence the same
answers of `userByID`, `userByLogin` and `userByName`, same population counter,
same identifier source); and in every registry deleting `U` a second time
changes nothing more than deleting it once. -/
theorem delete_absent_is_noop (r : preAuthUserRecords) (U : Nat) :
    ((∀ e ∈ r.users, e.uid ≠ U) →
      r.deletePreAuthUser U = r ∧
      (r.deletePreAuthUser U).numUsers = r.numUsers ∧
      (∀ uid, (r.deletePreAuthUser U).userByID uid = r.userByID uid) ∧
      (∀ l, (r.deletePreAuthUser U).userByLogin l = r.userByLogin l) ∧
      (∀ n, (r.deletePreAuthUser U).userByName n = r.userByName n)) ∧
    (r.userByID U = .error .NotFoundError → r.deletePreAuthUser U = r) ∧
    (r.deletePreAuthUser U).deletePreAuthUser U = r.deletePreAuthUser U := by
  refine ⟨?_, ?_, delete_absent _ U (delete_removes r U)⟩
  · intro h
    rw [delete_absent r U h]
    exact ⟨rfl, rfl, fun _ => rfl, fun _ => rfl, fun _ => rfl⟩
  · intro h
    unfold preAuthUserRecords.deletePreAuthUser
    rw [h]

/-- Witness for C8: deleting 12345 from a registry that holds only 7 changes
nothing; the scenario of the test on a user that was never registered. -/
theorem delete_absent_is_noop_witness :
    preAuthUserRecords.deletePreAuthUser
        { idGenerator := [12345],
          users := [{ uid := 7, loginName := "alice", name := "tmp-a" }],
          numUsers := 1 } 12345
      = { idGenerator := [12345],
          users := [{ uid := 7, loginName := "alice", name := "tmp-a" }],
          numUsers := 1 } :=
  ((delete_absent_is_noop
      { idGenerator := [12345],
        users := [{ uid := 7, loginName := "alice", name := "tmp-a" }],
        numUsers := 1 } 12345).1 (by decide)).1

/-! ## The invariant of the live entries -/

theorem new_consistent (idGenerator : List Nat) :
    (newPreAuthUserRecords idGenerator).Consistent := by
  simp [newPreAuthUserRecords, preAuthUserRecords.Consistent]

theorem register_consistent (MaxPreAuthUsers : Int) (r : preAuthUserRecords) (L name : String)
    (hr : r.Consistent) (hname : r.FreshName L name) :
    (r.RegisterPreAuthUser MaxPreAuthUsers L name).2.Consistent := by
  rcases hl : r.userByLogin L with err | e
  · have habs := (userByLogin_error hl).2
    obtain ⟨hne, hfresh⟩ := hname habs
    rw [register_new _ _ _ _ habs]
    by_cases hcap : r.numUsers ≥ MaxPreAuthUsers
    · rw [if_pos hcap]; exact hr
    · rw [if_neg hcap]
      rcases ha : r.allocate r.idGenerator with _ | ⟨uid, rest⟩
      · exact hr
      · have hfree := (allocate_free r r.idGenerator uid rest ha).2
        obtain ⟨h1, h2, h3, h4⟩ := hr
        refine ⟨?_, ?_, ?_, ?_⟩
        · simp only [List.map_cons, List.nodup_cons]
          refine ⟨?_, h1⟩
          simp only [List.mem_map, not_exists, not_and]
          exact fun x hx => hfree x hx
        · simp only [List.map_cons, List.nodup_cons]
          refine ⟨?_, h2⟩
          simp only [List.mem_map, not_exists, not_and]
          exact fun x hx => habs x hx
        · simp only [List.map_cons, List.nodup_cons]
          refine ⟨?_, h3⟩
          simp only [List.mem_map, not_exists, not_and]
          exact fun x hx => hfresh x hx
        · intro x hx
          rcases List.mem_cons.1 hx with rfl | hx
          · exact hne
          · exact h4 x hx
  · rw [register_existing MaxPreAuthUsers r L name e hl]
    exact hr

theorem delete_consistent (r : preAuthUserRecords) (U : Nat) (hr : r.Consistent) :
    (r.deletePreAuthUser U).Consistent := by
  unfold preAuthUserRecords.deletePreAuthUser
  rcases hl : r.userByID U with err | x
  · exact hr
  · obtain ⟨h1, h2, h3, h4⟩ := hr
    have hsub : (r.users.filter (fun e => e.uid != U)).Sublist r.users := List.filter_sublist _
    exact ⟨h1.sublist (hsub.map _), h2.sublist (hsub.map _), h3.sublist (hsub.map _),
      fun e he => h4 e (List.mem_of_mem_filter he)⟩

theorem consistent_lookups (r : preAuthUserRecords) (hr : r.Consistent) (e : PreAuthUserEntry)
    (he : e ∈ r.users) :
    r.userByID e.uid = .ok e ∧ r.userByLogin e.loginName = .ok e ∧
    r.userByName e.name = .ok e ∧ e.name ≠ "" := by
  obtain ⟨h1, h2, h3, h4⟩ := hr
  refine ⟨?_, ?_, ?_, h4 e he⟩
  · unfold preAuthUserRecords.userByID
    rw [find_key_of_nodup (fun e : PreAuthUserEntry => e.uid) r.users h1 e he]
  · unfold preAuthUserRecords.userByLogin
    rw [find_key_of_nodup (fun e : PreAuthUserEntry => e.loginName) r.users h2 e he]
  · unfold preAuthUserRecords.userByName
    rw [find_key_of_nodup (fun e : PreAuthUserEntry => e.name) r.users h3 e he]

theorem consistent_delete_lookups (r : preAuthUserRecords) (hr : r.Consistent)
    (e : PreAuthUserEntry) (he : e ∈ r.users) :
    (r.deletePreAuthUser e.uid).userByID e.uid = .error .NotFoundError ∧
    (r.deletePreAuthUser e.uid).userByLogin e.loginName = .error .NotFoundError ∧
    (r.deletePreAuthUser e.uid).userByName e.name = .error .NotFoundError ∧
    (r.deletePreAuthUser e.uid).numUsers = r.numUsers - 1 := by
  have hid := (consistent_lookups r hr e he).1
  obtain ⟨-, h2, h3, -⟩ := hr
  have hrest : ∀ y ∈ (r.deletePreAuthUser e.uid).users, y ∈ r.users ∧ y.uid ≠ e.uid := by
    intro y hy
    refine ⟨?_, delete_removes r e.uid y hy⟩
    unfold preAuthUserRecords.deletePreAuthUser at hy
    rw [hid] at hy
    exact List.mem_of_mem_filter hy
  refine ⟨userByID_of_absent (fun y hy => (hrest y hy).2), ?_, ?_, ?_⟩
  · refine userByLogin_of_absent (fun y hy hL => ?_)
    have := List.inj_on_of_nodup_map h2 (hrest y hy).1 he hL
    exact (hrest y hy).2 (by rw [this])
  · refine userByName_of_absent (fun y hy hN => ?_)
    have := List.inj_on_of_nodup_map h3 (hrest y hy).1 he hN
    exact (hrest y hy).2 (by rw [this])
  · unfold preAuthUserRecords.deletePreAuthUser
    rw [hid]

theorem run_consistent (MaxPreAuthUsers : Int) (ops : List Op) :
    ∀ r : preAuthUserRecords, r.Consistent → r.FreshNames MaxPreAuthUsers ops →
      (r.run MaxPreAuthUsers ops).Consistent := by
  induction ops with
  | nil => intro r hr _; exact hr
  | cons op ops ih =>
    intro r hr hf
    cases op with
    | register L name =>
      exact ih _ (register_consistent MaxPreAuthUsers r L name hr hf.1) hf.2
    | delete uid =>
      exact ih _ (delete_consistent r uid hr) hf

theorem lookups_of_consistent (MaxPreAuthUsers : Int) (r : preAuthUserRecords)
    (L name : String) (U : Nat) (hr : r.Consistent) (hname : r.FreshName L name)
    (hreg : (r.RegisterPreAuthUser MaxPreAuthUsers L name).1 = .ok U) :
    ∃ e : PreAuthUserEntry,
      e.uid = U ∧ e.loginName = L ∧ e.name ≠ "" ∧
      (r.RegisterPreAuthUser MaxPreAuthUsers L name).2.userByID U = .ok e ∧
      (r.RegisterPreAuthUser MaxPreAuthUsers L name).2.userByLogin L = .ok e ∧
      (r.RegisterPreAuthUser MaxPreAuthUsers L name).2.userByName e.name = .ok e ∧
      ((r.RegisterPreAuthUser MaxPreAuthUsers L name).2.deletePreAuthUser U).userByID U
        = .error .NotFoundError ∧
      ((r.RegisterPreAuthUser MaxPreAuthUsers L name).2.deletePreAuthUser U).userByLogin L
        = .error .NotFoundError ∧
      ((r.RegisterPreAuthUser MaxPreAuthUsers L name).2.deletePreAuthUser U).userByName e.name
        = .error .NotFoundError ∧
      ((r.RegisterPreAuthUser MaxPreAuthUsers L name).2.deletePreAuthUser U).numUsers
        = (r.RegisterPreAuthUser MaxPreAuthUsers L name).2.numUsers - 1 := by
  have hcons := register_consistent MaxPreAuthUsers r L name hr hname
  have hmem : ∃ e ∈ (r.RegisterPreAuthUser MaxPreAuthUsers L name).2.users,
      e.uid = U ∧ e.loginName = L := by
    rcases register_ok_cases MaxPreAuthUsers r L name U hreg with
      ⟨e, hl, hu, heq⟩ | ⟨-, -, rest, -, heq⟩
    · rw [heq]
      exact ⟨e, (userByLogin_ok hl).1, hu, (userByLogin_ok hl).2⟩
    · rw [heq]
      exact ⟨_, List.mem_cons_self _ _, rfl, rfl⟩
  obtain ⟨e, he, hu, hL⟩ := hmem
  obtain ⟨a1, a2, a3, a4⟩ := consistent_lookups _ hcons e he
  obtain ⟨b1, b2, b3, b4⟩ := consistent_delete_lookups _ hcons e he
  rw [hu] at a1 b1 b2 b3 b4
  rw [hL] at a2 b2
  exact ⟨e, hu, hL, a4, a1, a2, a3, b1, b2, b3, b4⟩

/-! ## C5: lookups after registration and after deletion -/

/-- C5, as stated, fails where the name generator hands out an empty name or a
name that is in use. First input: in a new registry alice is registered with
the generated name empty; the registration returns 500 and the entry found
under 500 has an empty display name. Second input: bob is live under the
display name `tmp-x` and alice is registered with the generated name `tmp-x`
again; the registration returns 500, the entry found under 500 has display name
`tmp-x`, and after `deletePreAuthUser(500)` the lookup `userByName` of `tmp-x`
does not fail: it finds bob. -/
theorem lookups_after_register_and_delete_counterexample :
    ((newPreAuthUserRecords [500]).RegisterPreAuthUser 4096 "alice" "").1 = .ok 500 ∧
    ((newPreAuthUserRecords [500]).RegisterPreAuthUser 4096 "alice" "").2.userByID 500
      = .ok { uid := 500, loginName := "alice", name := "" } ∧
    ((preAuthUserRecords.run 4096 (newPreAuthUserRecords [5, 500])
        [.register "bob" "tmp-x"]).RegisterPreAuthUser 4096 "alice" "tmp-x").1 = .ok 500 ∧
    ((preAuthUserRecords.run 4096 (newPreAuthUserRecords [5, 500])
        [.register "bob" "tmp-x"]).RegisterPreAuthUser 4096 "alice" "tmp-x").2.userByID 500
      = .ok { uid := 500, loginName := "alice", name := "tmp-x" } ∧
    (((preAuthUserRecords.run 4096 (newPreAuthUserRecords [5, 500])
        [.register "bob" "tmp-x"]).RegisterPreAuthUser 4096 "alice"
          "tmp-x").2.deletePreAuthUser 500).userByName "tmp-x"
      = .ok { uid := 5, loginName := "bob", name := "tmp-x" } :=
  ⟨rfl, rfl, rfl, rfl, rfl⟩

/-- C5, amended: let `r` be a registry reached from a new one by registrations
and deletions, and suppose that at each of those registrations, and at the
registration of `L` now, the display name generated for a new entry was
non-empty and was not the display name of an entry live at that moment. If
`RegisterPreAuthUser(L)` returns `U`, then afterwards `userByID(U)` and
`userByLogin(L)` succeed with one and the same entry, whose identifier is `U`,
whose login name is `L` and whose display name is non-empty, and `userByName`
of that display name returns that entry; after `deletePreAuthUser(U)` the three
lookups fail with `NotFoundError` and the population counter is exactly one less
than before the deletion. -/
theorem lookups_after_register_and_delete (MaxPreAuthUsers : Int) (idGenerator : List Nat)
    (ops : List Op) (r : preAuthUserRecords) (L name : String) (U : Nat)
    (hrun : (newPreAuthUserRecords idGenerator).run MaxPreAuthUsers ops = r)
    (hpast : (newPreAuthUserRecords idGenerator).FreshNames MaxPreAuthUsers ops)
    (hname : r.FreshName L name)
    (hreg : (r.RegisterPreAuthUser MaxPreAuthUsers L name).1 = .ok U) :
    ∃ e : PreAuthUserEntry,
      e.uid = U ∧ e.loginName = L ∧ e.name ≠ "" ∧
      (r.RegisterPreAuthUser MaxPreAuthUsers L name).2.userByID U = .ok e ∧
      (r.RegisterPreAuthUser MaxPreAuthUsers L name).2.userByLogin L = .ok e ∧
      (r.RegisterPreAuthUser MaxPreAuthUsers L name).2.userByName e.name = .ok e ∧
      ((r.RegisterPreAuthUser MaxPreAuthUsers L name).2.deletePreAuthUser U).userByID U
        = .error .NotFoundError ∧
      ((r.RegisterPreAuthUser MaxPreAuthUsers L name).2.deletePreAuthUser U).userByLogin L
        = .error .NotFoundError ∧
      ((r.RegisterPreAuthUser MaxPreAuthUsers L name).2.deletePreAuthUser U).userByName e.name
        = .error .NotFoundError ∧
      ((r.RegisterPreAuthUser MaxPreAuthUsers L name).2.deletePreAuthUser U).numUsers
        = (r.RegisterPreAuthUser MaxPreAuthUsers L name).2.numUsers - 1 := by
  have hr : r.Consistent := by
    rw [← hrun]
    exact run_consistent MaxPreAuthUsers ops _ (new_consistent idGenerator) hpast
  exact lookups_of_consistent MaxPreAuthUsers r L name U hr hname hreg

/-- Witness for C5, amended: from a new registry whose identifier source yields
5, 0, 5, 500, 5 and 7, bob is registered (5), carol is registered (0 and 5 are
skipped, 500) and deleted again, then alice is registered (5 is skipped, 7). -/
theorem lookups_after_register_and_delete_witness :
    ∃ e : PreAuthUserEntry,
      e.uid = 7 ∧ e.loginName = "alice" ∧ e.name ≠ "" ∧
      (preAuthUserRecords.RegisterPreAuthUser 4096
        { idGenerator := [5, 7], users := [{ uid := 5, loginName := "bob", name := "tmp-b" }],
          numUsers := 1 } "alice" "tmp-a").2.userByID 7 = .ok e ∧
      (preAuthUserRecords.RegisterPreAuthUser 4096
        { idGenerator := [5, 7], users := [{ uid := 5, loginName := "bob", name := "tmp-b" }],
          numUsers := 1 } "alice" "tmp-a").2.userByLogin "alice" = .ok e ∧
      (preAuthUserRecords.RegisterPreAuthUser 4096
        { idGenerator := [5, 7], users := [{ uid := 5, loginName := "bob", name := "tmp-b" }],
          numUsers := 1 } "alice" "tmp-a").2.userByName e.name = .ok e ∧
      ((preAuthUserRecords.RegisterPreAuthUser 4096
        { idGenerator := [5, 7], users := [{ uid := 5, loginName := "bob", name := "tmp-b" }],
          numUsers := 1 } "alice" "tmp-a").2.deletePreAuthUser 7).userByID 7
        = .error .NotFoundError ∧
      ((preAuthUserRecords.RegisterPreAuthUser 4096
        { idGenerator := [5, 7], users := [{ uid := 5, loginName := "bob", name := "tmp-b" }],
          numUsers := 1 } "alice" "tmp-a").2.deletePreAuthUser 7).userByLogin "alice"
        = .error .NotFoundError ∧
      ((preAuthUserRecords.RegisterPreAuthUser 4096
        { idGenerator := [5, 7], users := [{ uid := 5, loginName := "bob", name := "tmp-b" }],
          numUsers := 1 } "alice" "tmp-a").2.deletePreAuthUser 7).userByName e.name
        = .error .NotFoundError ∧
      ((preAuthUserRecords.RegisterPreAuthUser 4096
        { idGenerator := [5, 7], users := [{ uid := 5, loginName := "bob", name := "tmp-b" }],
          numUsers := 1 } "alice" "tmp-a").2.deletePreAuthUser 7).numUsers
        = (preAuthUserRecords.RegisterPreAuthUser 4096
        { idGenerator := [5, 7], users := [{ uid := 5, loginName := "bob", name := "tmp-b" }],
          numUsers := 1 } "alice" "tmp-a").2.numUsers - 1 :=
  lookups_after_register_and_delete 4096 [5, 0, 5, 500, 5, 7]
    [.register "bob" "tmp-b", .register "carol" "tmp-c", .delete 500]
    { idGenerator := [5, 7], users := [{ uid := 5, loginName := "bob", name := "tmp-b" }],
      numUsers := 1 } "alice" "tmp-a" 7
    rfl ⟨by decide, by decide, trivial⟩ (by decide) rfl

/-! ## The scenarios of `preauth_test.go`

The registry above run on the cases of `TestPreAuthUser` and
`TestPreAuthUserByIDAndName`, with login name `test` and identifier 12345. -/

theorem test_register_then_delete :
    ((newPreAuthUserRecords [12345]).RegisterPreAuthUser 4096 "test" "tmp-a").1 = .ok 12345 ∧
    ((newPreAuthUserRecords [12345]).RegisterPreAuthUser 4096 "test" "tmp-a").2.numUsers = 1 ∧
    (((newPreAuthUserRecords [12345]).RegisterPreAuthUser 4096 "test"
        "tmp-a").2.deletePreAuthUser 12345).numUsers = 0 ∧
    (((newPreAuthUserRecords [12345]).RegisterPreAuthUser 4096 "test"
        "tmp-a").2.deletePreAuthUser 12345).userByLogin "test" = .error .NotFoundError :=
  ⟨rfl, rfl, rfl, rfl⟩

theorem test_first_generated_uid_in_use :
    ((newPreAuthUserRecords [0, 12345]).RegisterPreAuthUser 4096 "test" "tmp-a").1 = .ok 12345 ∧
    ((newPreAuthUserRecords [0, 12345]).RegisterPreAuthUser 4096 "test" "tmp-a").2.numUsers
      = 1 :=
  ⟨rfl, rfl⟩

theorem test_maximum_reached :
    (preAuthUserRecords.RegisterPreAuthUser 4096
        { newPreAuthUserRecords [12345] with numUsers := 4096 } "test" "tmp-a").1
      = .error .RegistryFullError :=
  rfl

theorem test_user_by_id_and_name :
    (newPreAuthUserRecords [12345]).userByID 12345 = .error .NotFoundError ∧
    ((newPreAuthUserRecords [12345]).RegisterPreAuthUser 4096 "test" "tmp-a").2.userByID 12345
      = .ok { uid := 12345, loginName := "test", name := "tmp-a" } ∧
    ((newPreAuthUserRecords [12345]).RegisterPreAuthUser 4096 "test" "tmp-a").2.userByName "tmp-a"
      = .ok { uid := 12345, loginName := "test", name := "tmp-a" } ∧
    (((newPreAuthUserRecords [12345]).RegisterPreAuthUser 4096 "test"
        "tmp-a").2.deletePreAuthUser 12345).userByID 12345 = .error .NotFoundError :=
  ⟨rfl, rfl, rfl, rfl⟩

end Tempentries

end Authd
